import Mathlib

/-!
Verification development for the win-disk-info repository.

This file gives a shallow embedding, in Lean, of the repository's core
logic (file extraction, file identification, duplicate finding, and the
Windows disk/partition mapper) together with theorems settling the
specification claims about them.

Filesystem and WMI effects are made explicit: a directory walk is a list
of results (a traversal error or an entry), file metadata reads are
`Except` values carried on the entry, content sniffing is a function
from a path to an `Except` result, and the WMI collaborator is a record
of query functions.  Machine integers (`u64`, `usize`, `u16`) are
modelled as `Nat`; `isize` payloads as `Int`.
-/

namespace WinDiskInfo

/-- Decidable equality for `Except`, needed so concrete runs of the
embedded functions can be checked with `decide`. -/
instance instDecidableEqExcept {ε α : Type} [DecidableEq ε] [DecidableEq α] :
    DecidableEq (Except ε α)
  | .ok a, .ok b =>
    if h : a = b then .isTrue (by rw [h])
    else .isFalse (by intro hc; cases hc; exact h rfl)
  | .ok _, .error _ => .isFalse (by intro hc; cases hc)
  | .error _, .ok _ => .isFalse (by intro hc; cases hc)
  | .error a, .error b =>
    if h : a = b then .isTrue (by rw [h])
    else .isFalse (by intro hc; cases hc; exact h rfl)

/-! ## File model (src/models/file.rs, src/file_extraction.rs) -/

/-- Result of reading a file's filesystem metadata: the byte length and
the (possibly failing) modified-time read.  Times are seconds as `Nat`. -/
structure Metadata where
  len : Nat
  modifiedRes : Except Nat Nat
  deriving Repr, DecidableEq

/-- A directory-walk entry as yielded by the `walkdir` collaborator:
path, base file name, whether it is a regular file, and the result of
reading its metadata. -/
structure DirEntry where
  path : String
  fileName : String
  isFile : Bool
  metadataRes : Except Nat Metadata
  deriving Repr, DecidableEq

/-- `FileEntry` from src/models/file.rs: path, name, optional extension,
size in bytes and modified time. -/
structure FileEntry where
  path : String
  name : String
  extension : Option String
  size : Nat
  modified : Nat
  deriving Repr, DecidableEq

/-- Errors raised by `FileEntry::from_dir_entry`. -/
inductive FileEntryError where
  | metadataError : Nat → FileEntryError
  | timeError : Nat → FileEntryError
  deriving Repr, DecidableEq

/-- Split a character list at every character satisfying a predicate
(the pieces, in order, without the separators). -/
def splitOnPred (p : Char → Bool) : List Char → List (List Char)
  | [] => [[]]
  | c :: rest =>
    if p c then [] :: splitOnPred p rest
    else
      match splitOnPred p rest with
      | g :: gs => (c :: g) :: gs
      | [] => [[c]]

/-- Split a character list at every occurrence of a separator (the
pieces, in order, without the separator). -/
def splitOnChar (sep : Char) : List Char → List (List Char) :=
  splitOnPred (fun c => c = sep)

/-- Extension of a path, as `Path::extension` computes it in the code:
the part after the last dot of the final component, absent when the
file name has no dot or starts with its only dot. -/
def pathExtension (path : String) : Option String :=
  let base := (splitOnChar '/' path.data).getLastD path.data
  let parts := splitOnChar '.' base
  match parts with
  | [] => none
  | [_] => none
  | first :: rest =>
    if first.isEmpty ∧ rest.length = 1 then none
    else (rest.getLast?).map String.mk

/-- `FileEntry::from_dir_entry` (src/models/file.rs lines 66-91):
reads metadata (propagating failure), reads the modified time
(propagating failure), and records path, name, size and extension. -/
def FileEntry.from_dir_entry (entry : DirEntry) : Except FileEntryError FileEntry :=
  match entry.metadataRes with
  | .error e => .error (.metadataError e)
  | .ok md =>
    match md.modifiedRes with
    | .error e => .error (.timeError e)
    | .ok m =>
      .ok { path := entry.path
            name := entry.fileName
            extension := pathExtension entry.path
            size := md.len
            modified := m }

/-- `impl From<DirEntry> for FileEntry` (src/models/file.rs lines
155-172): on `from_dir_entry` failure it falls back to a record with
size 0, the current time as modified time, and no extension. -/
def fileEntry_from (now : Nat) (entry : DirEntry) : FileEntry :=
  match FileEntry.from_dir_entry entry with
  | .ok fe => fe
  | .error _ =>
    { path := entry.path
      name := entry.fileName
      extension := none
      size := 0
      modified := now }

/-- `get_files` (src/file_extraction.rs lines 29-38): walk the tree,
abort on a traversal error, convert every regular file via
`FileEntry::from`. -/
def get_files (now : Nat) : List (Except Nat DirEntry) → Except Nat (List FileEntry)
  | [] => .ok []
  | .error e :: _ => .error e
  | .ok entry :: rest =>
    if entry.isFile then
      (get_files now rest).map (fileEntry_from now entry :: ·)
    else
      get_files now rest

/-- `calculate_directory_size` (src/file_extraction.rs lines 175-186):
walk the tree, abort on a traversal error, and sum `metadata.len()` of
each regular file whose metadata read succeeds (failures skipped). -/
def calculate_directory_size : List (Except Nat DirEntry) → Except Nat Nat
  | [] => .ok 0
  | .error e :: _ => .error e
  | .ok entry :: rest =>
    (calculate_directory_size rest).map (fun s =>
      if entry.isFile then
        (match entry.metadataRes with
         | .ok md => md.len
         | .error _ => 0) + s
      else s)

/-- Error type of `get_recently_modified_files`
(src/file_extraction.rs lines 74-106). -/
inductive FileExtractionError where
  | walkDir : Nat → FileExtractionError
  | io : Nat → FileExtractionError
  | timeError : String → FileExtractionError
  deriving Repr, DecidableEq

/-- Walk loop of `get_recently_modified_files`: abort on traversal
errors, abort (`?`) when a file's metadata cannot be read, skip files
whose modified time cannot be read, keep files modified at or after the
cutoff. -/
def grmf_loop (now cutoff : Nat) :
    List (Except Nat DirEntry) → Except FileExtractionError (List FileEntry)
  | [] => .ok []
  | .error e :: _ => .error (.walkDir e)
  | .ok entry :: rest =>
    if entry.isFile then
      match entry.metadataRes with
      | .error e => .error (.io e)
      | .ok md =>
        match md.modifiedRes with
        | .ok m =>
          if cutoff ≤ m then
            (grmf_loop now cutoff rest).map (fileEntry_from now entry :: ·)
          else
            grmf_loop now cutoff rest
        | .error _ => grmf_loop now cutoff rest
    else
      grmf_loop now cutoff rest

/-- `get_recently_modified_files` (src/file_extraction.rs lines
128-151): compute the cutoff `now - days*86400` (failing with
`TimeError` when the subtraction is not possible), then run the walk
loop. -/
def get_recently_modified_files (now : Nat) (days : Nat)
    (walk : List (Except Nat DirEntry)) : Except FileExtractionError (List FileEntry) :=
  if days * 24 * 60 * 60 ≤ now then
    grmf_loop now (now - days * 24 * 60 * 60) walk
  else
    .error (.timeError "Failed to calculate cutoff time")

/-! ## File identification (src/file_identification.rs) -/

/-- The `infer` crate's `MatcherType` enum. -/
inductive MatcherType where
  | app | archive | audio | book | doc | font | image | text | video | custom
  deriving Repr, DecidableEq

/-- The `infer` crate's detected kind: matcher type plus MIME string. -/
structure Kind where
  matcherType : MatcherType
  mime : String
  deriving Repr, DecidableEq

/-- The content-sniffing collaborator `infer::get_from_path`: for a
path, either a read error, no detected type, or a detected `Kind`. -/
def Sniffer : Type := String → Except Nat (Option Kind)

/-- `matcher_type_to_string` (src/file_identification.rs lines 14-27). -/
def matcher_type_to_string : MatcherType → String
  | .app => "Application"
  | .archive => "Archive"
  | .audio => "Audio"
  | .book => "Book"
  | .doc => "Document"
  | .font => "Font"
  | .image => "Image"
  | .text => "Text"
  | .video => "Video"
  | .custom => "Custom"

/-- The MIME-to-accepted-extension table of `validate_file_extension`
(src/file_identification.rs lines 56-94); the extension argument is
already lowercased.  MIME types absent from the table validate true. -/
def mimeExtValid (mime ext : String) : Bool :=
  if mime = "image/jpeg" then ext = "jpg" || ext = "jpeg"
  else if mime = "image/png" then ext = "png"
  else if mime = "image/gif" then ext = "gif"
  else if mime = "image/webp" then ext = "webp"
  else if mime = "image/bmp" then ext = "bmp"
  else if mime = "audio/mpeg" then ext = "mp3"
  else if mime = "audio/wav" then ext = "wav"
  else if mime = "audio/ogg" then ext = "ogg"
  else if mime = "audio/flac" then ext = "flac"
  else if mime = "video/mp4" then ext = "mp4"
  else if mime = "video/x-matroska" then ext = "mkv"
  else if mime = "video/webm" then ext = "webm"
  else if mime = "video/quicktime" then ext = "mov"
  else if mime = "video/x-msvideo" then ext = "avi"
  else if mime = "application/pdf" then ext = "pdf"
  else if mime = "application/msword" then ext = "doc"
  else if mime = "application/vnd.openxmlformats-officedocument.wordprocessingml.document" then
    ext = "docx"
  else if mime = "application/vnd.ms-excel" then ext = "xls"
  else if mime = "application/vnd.openxmlformats-officedocument.spreadsheetml.sheet" then
    ext = "xlsx"
  else if mime = "application/zip" then ext = "zip"
  else if mime = "application/x-rar-compressed" then ext = "rar"
  else if mime = "application/gzip" then ext = "gz" || ext = "gzip"
  else if mime = "application/x-7z-compressed" then ext = "7z"
  else true

/-- Rust `str::to_lowercase`, character-wise (the extensions compared
here are ASCII). -/
def toLowerStr (s : String) : String := String.mk (s.data.map Char.toLower)

/-- `validate_file_extension` (src/file_identification.rs lines 41-97):
sniff the file; on failure return `(true, none)`; with a detected type
and no extension return `(false, some mime)`; otherwise compare the
lowercased extension against the MIME table. -/
def validate_file_extension (sniff : Sniffer) (file : FileEntry) : Bool × Option String :=
  match sniff file.path with
  | .ok (some kind) =>
    let mime := kind.mime
    match file.extension with
    | none => (false, some mime)
    | some ext0 =>
      let ext := toLowerStr ext0
      (mimeExtValid kind.mime ext, some mime)
  | _ => (true, none)

/-- `entry(category).or_insert_with(Vec::new).push(file)` on the
category map, modelled as an association list with unique keys. -/
def addToCategory (m : List (String × List FileEntry)) (cat : String) (f : FileEntry) :
    List (String × List FileEntry) :=
  if m.any (fun p => p.1 = cat) then
    m.map (fun p => if p.1 = cat then (p.1, p.2 ++ [f]) else p)
  else
    m ++ [(cat, [f])]

/-- Lookup of a category's file list in the category map (absent keys
give the empty list). -/
def lookupCat : List (String × List FileEntry) → String → List FileEntry
  | [], _ => []
  | p :: ms, cat => if p.1 = cat then p.2 else lookupCat ms cat

/-- Loop body of `identify_files` folded over the records: sniff
errors skip the record, undetected types go under "Unknown", detected
types under their matcher-type category. -/
def identify_step (sniff : Sniffer) (m : List (String × List FileEntry)) (f : FileEntry) :
    List (String × List FileEntry) :=
  match sniff f.path with
  | .error _ => m
  | .ok (some kind) => addToCategory m (matcher_type_to_string kind.matcherType) f
  | .ok none => addToCategory m "Unknown" f

/-- `identify_files` (src/file_identification.rs lines 113-141). -/
def identify_files (sniff : Sniffer) (file_entries : List FileEntry) :
    List (String × List FileEntry) :=
  file_entries.foldl (identify_step sniff) []

/-- `find_mismatched_extensions` (src/file_identification.rs lines
156-170): keep, in input order, the records that validate false, each
paired with the detected MIME when present. -/
def find_mismatched_extensions (sniff : Sniffer) : List FileEntry → List (FileEntry × String)
  | [] => []
  | f :: rest =>
    match validate_file_extension sniff f with
    | (false, some m) => (f, m) :: find_mismatched_extensions sniff rest
    | (false, none) => find_mismatched_extensions sniff rest
    | (true, _) => find_mismatched_extensions sniff rest

/-! ## Disk/partition mapper (src/windows_storage.rs, src/models) -/

/-- The `wmi` crate's `Variant` value, restricted to the constructors
this code base touches. -/
inductive Variant where
  | str : String → Variant
  | ui2 : Nat → Variant
  | ui4 : Nat → Variant
  | ui8 : Nat → Variant
  | boolean : Bool → Variant
  | array : List Variant → Variant
  deriving Repr

/-- Equality of a `Variant` with `Variant::String(target)`, the only
element-equality the code performs on variant arrays
(`capabilities.contains(&Variant::String(...))`). -/
def variantIsStringEq (target : String) : Variant → Bool
  | .str s => s = target
  | _ => false

/-- A WMI attribute record `HashMap<String, Variant>`, modelled as an
association list with unique keys (lookup takes the first match). -/
abbrev VariantMap : Type := List (String × Variant)

/-- Lookup in a `VariantMap` (`map.get(key)`). -/
def vget (m : VariantMap) (key : String) : Option Variant :=
  match List.find? (fun p => p.1 = key) m with
  | some p => some p.2
  | none => none

/-- Insert in a `VariantMap` (`map.insert(key, value)`), overwriting an
existing binding. -/
def vinsert (m : VariantMap) (key : String) (v : Variant) : VariantMap :=
  if List.any m (fun p => p.1 = key) then
    List.map (fun p => if p.1 = key then (p.1, v) else p) m
  else
    m ++ [(key, v)]

/-- `DiskKind` (src/models/disk.rs). -/
inductive DiskKind where
  | HDD | SSD | SCM
  | Unknown : Int → DiskKind
  deriving Repr, DecidableEq

/-- `FileSystem` (src/models/partition.rs); mount paths as strings. -/
inductive FileSystem where
  | BTRFS : List String → FileSystem
  | EXT4 : String → FileSystem
  | NTFS : String → FileSystem
  | FAT32 : String → FileSystem
  | EXFAT : String → FileSystem
  | XFS : String → FileSystem
  | ZFS : String → FileSystem
  | NotImplemented : String → String → FileSystem
  | Unknown : FileSystem
  deriving Repr, DecidableEq

/-- `Partition` (src/models/partition.rs). -/
structure Partition where
  id : Nat
  name : String
  file_system : FileSystem
  total_space : Nat
  available_space : Nat
  deriving Repr, DecidableEq

/-- `Disk` (src/models/disk.rs). -/
structure Disk where
  device_name : String
  model : String
  serial : String
  kind : DiskKind
  size : Nat
  removable : Bool
  partitions : List Partition
  deriving Repr, DecidableEq

/-- Media type constants (src/windows_storage.rs lines 10-12). -/
def MEDIA_TYPE_HDD : Nat := 3

/-- Media type constant for SSD. -/
def MEDIA_TYPE_SSD : Nat := 4

/-- Media type constant for SCM. -/
def MEDIA_TYPE_SCM : Nat := 5

/-- `SupportedFileSystem` (src/windows_storage.rs lines 19-28). -/
inductive SupportedFileSystem where
  | NTFS | FAT32 | EXFAT
  | NotImplemented : String → SupportedFileSystem
  deriving Repr, DecidableEq

/-- `impl From<&str> for SupportedFileSystem` (src/windows_storage.rs
lines 30-39). -/
def supported_file_system_from (s : String) : SupportedFileSystem :=
  if s = "NTFS" then .NTFS
  else if s = "FAT32" then .FAT32
  else if s = "exFAT" then .EXFAT
  else .NotImplemented s

/-- `create_file_system` (src/windows_storage.rs lines 372-380). -/
def create_file_system (fs_type : String) (mount_path : String) : Option FileSystem :=
  match supported_file_system_from fs_type with
  | .NTFS => some (.NTFS mount_path)
  | .FAT32 => some (.FAT32 mount_path)
  | .EXFAT => some (.EXFAT mount_path)
  | .NotImplemented fs => some (.NotImplemented fs mount_path)

/-- `get_string_value` (src/windows_storage.rs lines 327-332). -/
def get_string_value (m : VariantMap) (key : String) : Option String :=
  match vget m key with
  | some (.str value) => some value
  | _ => none

/-- `get_u64_value` (src/windows_storage.rs lines 342-347). -/
def get_u64_value (m : VariantMap) (key : String) : Option Nat :=
  match vget m key with
  | some (.ui8 value) => some value
  | _ => none

/-- `get_bool_value` (src/windows_storage.rs lines 357-362). -/
def get_bool_value (m : VariantMap) (key : String) : Option Bool :=
  match vget m key with
  | some (.boolean value) => some value
  | _ => none

/-- `get_disk_kind` (src/windows_storage.rs lines 102-112): map the
"Kind" media-type code 3/4/5 to HDD/SSD/SCM, any other code `c` to
`Unknown (c as isize)`, and a missing or non-`UI2` value to
`Unknown (-1)`. -/
def get_disk_kind (disk_info : VariantMap) : Option DiskKind :=
  match vget disk_info "Kind" with
  | some (.ui2 media_type) =>
    if media_type = MEDIA_TYPE_HDD then some .HDD
    else if media_type = MEDIA_TYPE_SSD then some .SSD
    else if media_type = MEDIA_TYPE_SCM then some .SCM
    else some (.Unknown (Int.ofNat media_type))
  | _ => some (.Unknown (-1))

/-- Repeatedly strip a leading run of "PHYSICALDRIVE", as
`trim_start_matches` does; the first argument is recursion fuel. -/
def stripDriveRuns : Nat → List Char → List Char
  | 0, s => s
  | fuel + 1, s =>
    let pat := "PHYSICALDRIVE".toList
    if s.take pat.length = pat then stripDriveRuns fuel (s.drop pat.length) else s

/-- Rust `str::parse::<u32>` on a character list: all-digit and
in-range strings parse, everything else fails. -/
def parseU32 (s : List Char) : Option Nat :=
  if !s.isEmpty && s.all Char.isDigit then
    let n := s.foldl (fun acc c => acc * 10 + (c.toNat - 48)) 0
    if n < 4294967296 then some n else none
  else none

/-- `extract_disk_number` (src/windows_storage.rs lines 148-154). -/
def extract_disk_number (device_id : String) : Nat :=
  let lastPart := (splitOnChar '\\' device_id.data).getLastD []
  let stripped := stripDriveRuns lastPart.length lastPart
  (parseU32 stripped).getD 0

/-- The WMI collaborator: the four queries the mapper issues, as
functions producing attribute records or a query error. -/
structure DiskEnv where
  diskDrives : Except Nat (List VariantMap)
  storageQuery : Nat → Except Nat (List VariantMap)
  partitionsOf : String → Except Nat (List VariantMap)
  logicalOf : String → Except Nat (List VariantMap)

/-- `update_disk_info` (src/windows_storage.rs lines 55-93): query the
storage namespace by disk number and fold Model / SerialNumber / Kind /
Removable updates into the disk's attribute record. -/
def update_disk_info (env : DiskEnv) (disk_info : VariantMap) (device_id : String) :
    Except Nat VariantMap :=
  match env.storageQuery (extract_disk_number device_id) with
  | .error e => .error e
  | .ok results =>
    let m1 :=
      match results.head? with
      | some storage_info =>
        let a := match vget storage_info "Model" with
          | some (.str model) => vinsert disk_info "Model" (.str model)
          | _ => disk_info
        let b := match vget storage_info "FruId" with
          | some (.str fru_id) => vinsert a "SerialNumber" (.str fru_id)
          | _ => a
        match vget storage_info "MediaType" with
        | some (.ui2 media_type) => vinsert b "Kind" (.ui2 media_type)
        | _ => b
      | none => disk_info
    let m2 :=
      match vget m1 "CapabilityDescriptions" with
      | some (.array capabilities) =>
        vinsert m1 "Removable"
          (.boolean (capabilities.any (variantIsStringEq "Supports Removable Media")))
      | _ => m1
    .ok m2

/-- `get_logical_disk` (src/windows_storage.rs lines 127-139): run the
associator query and take the first result, if any. -/
def get_logical_disk (env : DiskEnv) (partition_id : String) :
    Except Nat (Option VariantMap) :=
  (env.logicalOf partition_id).map List.head?

/-- The `.ok()??` step of `process_partition`: the logical-disk record
when the associator query succeeds and returns one, `none` otherwise. -/
def logicalOfOpt (env : DiskEnv) (device_id : String) : Option VariantMap :=
  match get_logical_disk env device_id with
  | .ok (some ld) => some ld
  | _ => none

/-- `process_partition` (src/windows_storage.rs lines 289-315): resolve
the logical disk, extract name / file system / spaces, assign the
current counter value as id and increment the counter; any failed
lookup skips the partition without touching the counter. -/
def process_partition (env : DiskEnv) (partition_data : VariantMap) (count : Nat) :
    Option (Partition × Nat) := do
  let device_id ← get_string_value partition_data "DeviceID"
  let logical_disk ← logicalOfOpt env device_id
  let name ← get_string_value logical_disk "Name"
  let fsStr ← get_string_value logical_disk "FileSystem"
  let mountDev ← get_string_value logical_disk "DeviceID"
  let mount_path := mountDev ++ "\\"
  let file_system ← create_file_system fsStr mount_path
  let total_space ← get_u64_value logical_disk "Size"
  let available_space ← get_u64_value logical_disk "FreeSpace"
  some (⟨count, name, file_system, total_space, available_space⟩, count + 1)

/-- The `filter_map` over partition records with the mutable counter,
written as structural recursion threading the counter. -/
def build_partitions (env : DiskEnv) : List VariantMap → Nat → List Partition × Nat
  | [], count => ([], count)
  | r :: rest, count =>
    match process_partition env r count with
    | some (p, c') =>
      (p :: (build_partitions env rest c').1, (build_partitions env rest c').2)
    | none => build_partitions env rest count

/-- `get_partitions` (src/windows_storage.rs lines 260-278): run the
disk-to-partition associator query (failure aborts before any counter
update) and process each partition record. -/
def get_partitions (env : DiskEnv) (device_id : String) (count : Nat) :
    Except Nat (List Partition × Nat) :=
  match env.partitionsOf device_id with
  | .error e => .error e
  | .ok results => .ok (build_partitions env results count)

/-- Rust `split_whitespace().collect::<Vec<_>>().join(" ")`. -/
def joinWhitespace (s : String) : String :=
  String.mk (List.intercalate [' ']
    ((splitOnPred Char.isWhitespace s.data).filter (fun t => !t.isEmpty)))

/-- The disk-field extraction chain of `process_disk`: caption (with
whitespace-joined device name), model, serial, kind, size, removable
flag and device id; any missing field yields `none`. -/
def disk_fields (disk_info : VariantMap) :
    Option (String × String × String × DiskKind × Nat × Bool × String) := do
  let caption ← get_string_value disk_info "Caption"
  let model ← get_string_value disk_info "Model"
  let serial ← get_string_value disk_info "SerialNumber"
  let kind ← get_disk_kind disk_info
  let size ← get_u64_value disk_info "Size"
  let removable ← get_bool_value disk_info "Removable"
  let device_id ← get_string_value disk_info "DeviceID"
  some (joinWhitespace caption, model, serial, kind, size, removable, device_id)

/-- The enrichment step of `process_disk`: when the record carries a
device id, run `update_disk_info` (its failure skips the disk);
otherwise keep the record as is. -/
def updated_disk_info (env : DiskEnv) (disk_wmi : VariantMap) : Option VariantMap :=
  match get_string_value disk_wmi "DeviceID" with
  | some device_id =>
    match update_disk_info env disk_wmi device_id with
    | .ok m => some m
    | .error _ => none
  | none => some disk_wmi

/-- `process_disk` (src/windows_storage.rs lines 207-249): enrich the
attribute record, extract the disk fields (any failure skips the disk),
then collect its partitions, threading the shared partition counter.
The pair's second component is the counter after the call. -/
def process_disk (env : DiskEnv) (disk_wmi : VariantMap) (count : Nat) :
    Option Disk × Nat :=
  match updated_disk_info env disk_wmi with
  | none => (none, count)
  | some disk_info =>
    match disk_fields disk_info with
    | none => (none, count)
    | some (device_name, model, serial, kind, size, removable, device_id) =>
      match get_partitions env device_id count with
      | .error _ => (none, count)
      | .ok (partitions, c') =>
        (some ⟨device_name, model, serial, kind, size, removable, partitions⟩, c')

/-- The fold over disk records with the shared partition counter
starting at 0 and never reset, written as structural recursion. -/
def build_disks (env : DiskEnv) : List VariantMap → Nat → List Disk
  | [], _ => []
  | d :: rest, count =>
    match process_disk env d count with
    | (some disk, c') => disk :: build_disks env rest c'
    | (none, c') => build_disks env rest c'

/-- `get_disks` (src/windows_storage.rs lines 178-195): enumerate the
disk records (failure of this top-level query is fatal) and process
each with the shared partition counter initialised to 0. -/
def get_disks (env : DiskEnv) : Except Nat (List Disk) :=
  match env.diskDrives with
  | .error e => .error e
  | .ok disks_wmi => .ok (build_disks env disks_wmi 0)

/-! ## Duplicate finder

The duplicate-finding operation described by spec sections 2, 3 and 4.2
has no implementation under src/; it is modelled here from the spec. -/

/-- Modelled from the spec: a scanned file for the duplicate finder,
identified by its path and carrying its full byte content; its size is
the byte length of the content. -/
structure SFile where
  path : String
  content : List Nat
  deriving Repr, DecidableEq

/-- Modelled from the spec: grouping a list of files by a key — each
distinct key, in first-occurrence order, paired with the files carrying
it, in input order. -/
def bucketBy {β : Type} [DecidableEq β] (key : SFile → β) (xs : List SFile) :
    List (β × List SFile) :=
  (xs.map key).dedup.map (fun k => (k, xs.filter (fun x => decide (key x = k))))

/-- Modelled from the spec (section 4.2, missing from src/): the
duplicate finder. (1) discard empty files; (2) bucket by exact byte
size and drop buckets with fewer than 2 members; (3) hash every
remaining file with the whole-file digest `hash`; (4) group by hash;
(5) emit only groups with at least 2 members. -/
def find_duplicate_files (hash : List Nat → List Nat) (files : List SFile) :
    List (List SFile) :=
  let nonEmpty := files.filter (fun f => !f.content.isEmpty)
  let sizeBuckets :=
    (bucketBy (fun f => f.content.length) nonEmpty).filter (fun b => 2 ≤ b.2.length)
  let hashGroups := sizeBuckets.flatMap (fun b => bucketBy (fun f => hash f.content) b.2)
  (hashGroups.map Prod.snd).filter (fun g => 2 ≤ g.length)

/-! ## Theorems -/

/-- Claim C9: for every disk attribute map, the derived disk kind is:
media-type code 3 maps to HDD, 4 to SSD, 5 to SCM, any other present
code `c` to `Unknown c`, and an absent (or non-16-bit-unsigned) code to
`Unknown (-1)`. -/
theorem get_disk_kind_spec (m : VariantMap) :
    (vget m "Kind" = some (.ui2 3) → get_disk_kind m = some .HDD) ∧
    (vget m "Kind" = some (.ui2 4) → get_disk_kind m = some .SSD) ∧
    (vget m "Kind" = some (.ui2 5) → get_disk_kind m = some .SCM) ∧
    (∀ c, c ≠ 3 → c ≠ 4 → c ≠ 5 → vget m "Kind" = some (.ui2 c) →
      get_disk_kind m = some (.Unknown (Int.ofNat c))) ∧
    (vget m "Kind" = none → get_disk_kind m = some (.Unknown (-1))) ∧
    (∀ v, vget m "Kind" = some v → (∀ c, v ≠ .ui2 c) →
      get_disk_kind m = some (.Unknown (-1))) := by
  refine ⟨?_, ?_, ?_, ?_, ?_, ?_⟩
  · intro h
    simp [get_disk_kind, h, MEDIA_TYPE_HDD, MEDIA_TYPE_SSD, MEDIA_TYPE_SCM]
  · intro h
    simp [get_disk_kind, h, MEDIA_TYPE_HDD, MEDIA_TYPE_SSD, MEDIA_TYPE_SCM]
  · intro h
    simp [get_disk_kind, h, MEDIA_TYPE_HDD, MEDIA_TYPE_SSD, MEDIA_TYPE_SCM]
  · intro c h3 h4 h5 h
    simp [get_disk_kind, h, MEDIA_TYPE_HDD, MEDIA_TYPE_SSD, MEDIA_TYPE_SCM, h3, h4, h5]
  · intro h
    simp [get_disk_kind, h]
  · intro v h hv
    cases v with
    | ui2 c => exact absurd rfl (hv c)
    | str s => simp [get_disk_kind, h]
    | ui4 x => simp [get_disk_kind, h]
    | ui8 x => simp [get_disk_kind, h]
    | boolean b => simp [get_disk_kind, h]
    | array l => simp [get_disk_kind, h]

/-- Witness for C9: a map carrying media-type code 4 yields SSD. -/
theorem get_disk_kind_spec_witness :
    get_disk_kind [("Kind", Variant.ui2 4)] = some DiskKind.SSD :=
  (get_disk_kind_spec [("Kind", Variant.ui2 4)]).2.1 rfl

/-- Claim C6: whenever sniffing yields no detected type (read error or
no signature match), `validate_file_extension` returns
`(true, none)` for any extension. -/
theorem validate_indeterminate (sniff : Sniffer) (file : FileEntry)
    (h : ∀ k, sniff file.path ≠ .ok (some k)) :
    validate_file_extension sniff file = (true, none) := by
  unfold validate_file_extension
  cases hs : sniff file.path with
  | error e => simp
  | ok o =>
    cases o with
    | none => simp
    | some k => exact absurd hs (h k)

/-- A sniffer that never detects a type. -/
def snNone : Sniffer := fun _ => .ok none

/-- A file record with a png extension, used in concrete runs. -/
def fPng : FileEntry :=
  { path := "d/wrong.png", name := "wrong.png", extension := some "png"
    size := 10, modified := 0 }

/-- Witness for C6: with a sniffer that detects nothing, a file with a
png extension still validates `(true, none)`. -/
theorem validate_indeterminate_witness :
    validate_file_extension snNone fPng = (true, none) :=
  validate_indeterminate snNone fPng (fun k h => by simp [snNone] at h)

/-- Claim C7: for a file sniffing as MIME "image/jpeg": extension
case-insensitively "jpg"/"jpeg" validates `(true, some "image/jpeg")`;
extension "png" validates `(false, some "image/jpeg")`; no extension
validates `(false, some "image/jpeg")`. -/
theorem validate_jpeg (sniff : Sniffer) (file : FileEntry) (k : Kind)
    (hs : sniff file.path = .ok (some k)) (hm : k.mime = "image/jpeg") :
    (∀ e, file.extension = some e → toLowerStr e = "jpg" ∨ toLowerStr e = "jpeg" →
      validate_file_extension sniff file = (true, some "image/jpeg")) ∧
    (∀ e, file.extension = some e → toLowerStr e = "png" →
      validate_file_extension sniff file = (false, some "image/jpeg")) ∧
    (file.extension = none →
      validate_file_extension sniff file = (false, some "image/jpeg")) := by
  refine ⟨?_, ?_, ?_⟩
  · intro e he hlow
    rcases hlow with h1 | h1 <;>
      simp [validate_file_extension, hs, he, hm, mimeExtValid, h1]
  · intro e he hlow
    simp [validate_file_extension, hs, he, hm, mimeExtValid, hlow]
  · intro he
    simp [validate_file_extension, hs, he, hm]

/-- A sniffer that always detects a JPEG image. -/
def snJpeg : Sniffer := fun _ => .ok (some ⟨.image, "image/jpeg"⟩)

/-- A file record with a JPG extension. -/
def fJpg : FileEntry :=
  { path := "d/correct.JPG", name := "correct.JPG", extension := some "JPG"
    size := 10, modified := 0 }

/-- A file record without an extension. -/
def fNoExt : FileEntry :=
  { path := "d/noextension", name := "noextension", extension := none
    size := 10, modified := 0 }

/-- Witness for C7: the three JPEG extension-validation outcomes at
concrete files (with an uppercase "JPG" extension for the match). -/
theorem validate_jpeg_witness :
    validate_file_extension snJpeg fJpg = (true, some "image/jpeg") ∧
    validate_file_extension snJpeg fPng = (false, some "image/jpeg") ∧
    validate_file_extension snJpeg fNoExt = (false, some "image/jpeg") :=
  ⟨(validate_jpeg snJpeg fJpg _ rfl rfl).1 "JPG" rfl (Or.inl (by decide)),
   (validate_jpeg snJpeg fPng _ rfl rfl).2.1 "png" rfl (by decide),
   (validate_jpeg snJpeg fNoExt _ rfl rfl).2.2 rfl⟩

/-- When `validate_file_extension` reports a mismatch it always also
reports the detected MIME type. -/
theorem validate_false_has_mime (sniff : Sniffer) (file : FileEntry)
    (h : (validate_file_extension sniff file).1 = false) :
    ∃ m, (validate_file_extension sniff file).2 = some m := by
  unfold validate_file_extension at h ⊢
  cases hs : sniff file.path with
  | error e => rw [hs] at h; simp at h
  | ok o =>
    cases o with
    | none => rw [hs] at h; simp at h
    | some k =>
      cases he : file.extension with
      | none => simp [hs, he]
      | some e => simp [hs, he]

/-- Claim C10: `validate_file_extension` never returns
`(false, none)`, and `find_mismatched_extensions` returns exactly the
records validating false, in input order, each paired with its
detected MIME. -/
theorem find_mismatched_spec (sniff : Sniffer) :
    (∀ file, validate_file_extension sniff file ≠ (false, none)) ∧
    (∀ files, find_mismatched_extensions sniff files =
      (files.filter (fun f => !(validate_file_extension sniff f).1)).map
        (fun f => (f, ((validate_file_extension sniff f).2).getD ""))) := by
  constructor
  · intro file heq
    rcases validate_false_has_mime sniff file (by rw [heq]) with ⟨m, hm⟩
    rw [heq] at hm
    simp at hm
  · intro files
    induction files with
    | nil => rfl
    | cons f rest ih =>
      cases hv : validate_file_extension sniff f with
      | mk b o =>
        cases b with
        | false =>
          rcases validate_false_has_mime sniff f (by rw [hv]) with ⟨m, hm⟩
          rw [hv] at hm
          simp only at hm
          subst hm
          simp [find_mismatched_extensions, hv, ih]
        | true =>
          simp [find_mismatched_extensions, hv, ih]

/-- Witness for C10: concrete mismatch detection — with the JPEG
sniffer, only the png-named file is reported, with MIME "image/jpeg". -/
theorem find_mismatched_spec_witness :
    find_mismatched_extensions snJpeg [fJpg, fPng] = [(fPng, "image/jpeg")] ∧
    validate_file_extension snJpeg fPng ≠ (false, none) := by
  refine ⟨?_, (find_mismatched_spec snJpeg).1 fPng⟩
  rw [(find_mismatched_spec snJpeg).2 [fJpg, fPng]]
  decide

/-! ### C2, C3, C4: file extraction -/

/-- A directory entry whose file metadata cannot be read at all. -/
def eMetaErr : DirEntry := ⟨"d/bad", "bad", true, .error 7⟩

/-- A 100-byte file whose metadata reads fine but whose modified time
cannot be read. -/
def eBadTime100 : DirEntry := ⟨"d/f", "f", true, .ok ⟨100, .error 0⟩⟩

/-- A 5-byte file whose metadata and modified time both read fine. -/
def eGoodMeta : DirEntry := ⟨"d/a.txt", "a.txt", true, .ok ⟨5, .ok 999999⟩⟩

/-- A subdirectory entry (not a regular file). -/
def eDir : DirEntry := ⟨"d/sub", "sub", false, .ok ⟨50, .ok 1⟩⟩

/-- Counterexample to claim C2: a walk containing one file whose
metadata cannot be read makes `get_recently_modified_files` return an
error — the per-file metadata failure aborts the whole call instead of
being skipped. -/
theorem grmf_metadata_error_cex :
    (get_recently_modified_files 1000000 0 [.ok eMetaErr]).isOk = false ∧
    get_recently_modified_files 1000000 0 [.ok eMetaErr] =
      .error (.io 7) := by
  decide

/-- Does a directory entry qualify for the recently-modified listing:
it is a regular file whose metadata and modified time are readable and
whose modified time is at or after the cutoff. -/
def qualifies (cutoff : Nat) (e : DirEntry) : Bool :=
  e.isFile &&
    match e.metadataRes with
    | .ok md =>
      match md.modifiedRes with
      | .ok m => decide (cutoff ≤ m)
      | .error _ => false
    | .error _ => false

/-- A directory entry whose metadata read succeeds whenever it is a
regular file. -/
def metadataReadable (e : DirEntry) : Bool :=
  !e.isFile ||
    match e.metadataRes with
    | .ok _ => true
    | .error _ => false

/-- On walks whose file entries all have readable metadata, the
recently-modified loop returns exactly the qualifying files; a
modified-time read failure only excludes that file. -/
theorem grmf_loop_ok (now cutoff : Nat) (entries : List DirEntry)
    (h : entries.all metadataReadable = true) :
    grmf_loop now cutoff (entries.map .ok) =
      .ok ((entries.filter (qualifies cutoff)).map (fileEntry_from now)) := by
  induction entries with
  | nil => rfl
  | cons e rest ih =>
    rw [List.all_cons, Bool.and_eq_true] at h
    obtain ⟨h1, h2⟩ := h
    cases hf : e.isFile with
    | false =>
      simp [grmf_loop, hf, List.filter_cons, qualifies, ih h2]
    | true =>
      cases hm : e.metadataRes with
      | error c =>
        rw [metadataReadable, hf, hm] at h1
        simp at h1
      | ok md =>
        cases hmo : md.modifiedRes with
        | error c =>
          simp [grmf_loop, hf, hm, hmo, List.filter_cons, qualifies, ih h2]
        | ok m =>
          by_cases hc : cutoff ≤ m
          · simp [grmf_loop, hf, hm, hmo, hc, List.filter_cons, qualifies,
              ih h2, Except.map]
          · simp [grmf_loop, hf, hm, hmo, hc, List.filter_cons, qualifies,
              ih h2]

/-- Claim C2 amended: a per-file modified-time read failure is skipped
and the call still returns Ok with the remaining qualifying files, but
a per-file metadata (stat) read failure causes the whole call to
return `Err(Io)`. -/
theorem grmf_amended (now days : Nat) (entries : List DirEntry)
    (hdays : days * 24 * 60 * 60 ≤ now)
    (hmd : entries.all metadataReadable = true) :
    (get_recently_modified_files now days (entries.map .ok) =
      .ok ((entries.filter (qualifies (now - days * 24 * 60 * 60))).map
        (fileEntry_from now))) ∧
    (∀ e rest, e.isFile = true → ∀ c, e.metadataRes = .error c →
      get_recently_modified_files now days (.ok e :: rest) =
        .error (.io c)) := by
  constructor
  · rw [get_recently_modified_files, if_pos hdays]
    exact grmf_loop_ok now _ entries hmd
  · intro e rest hf c hm
    rw [get_recently_modified_files, if_pos hdays]
    simp [grmf_loop, hf, hm]

/-- Witness for C2's amended claim: with a one-day window, the file
with unreadable modified time is skipped while the good file is kept,
and the call succeeds. -/
theorem grmf_amended_witness :
    get_recently_modified_files 1000000 1 ([eGoodMeta, eBadTime100].map .ok) =
      .ok [fileEntry_from 1000000 eGoodMeta] := by
  rw [(grmf_amended 1000000 1 [eGoodMeta, eBadTime100] (by decide) (by decide)).1]
  decide

/-- Counterexample to claim C3: the record built from a file whose
modified-time read fails (metadata reporting 100 bytes) has size 0,
not the metadata byte length. -/
theorem fileEntry_size_cex :
    eBadTime100.metadataRes = .ok ⟨100, .error 0⟩ ∧
    (fileEntry_from 0 eBadTime100).size = 0 ∧
    (fileEntry_from 0 eBadTime100).size ≠ 100 := by
  decide

/-- Claim C3 amended: a constructed record's size equals the metadata
byte length exactly when both the metadata and the modified-time reads
succeed; when either fails, the `From<DirEntry>` fallback record has
size 0. -/
theorem fileEntry_size_amended (now : Nat) (e : DirEntry) :
    (∀ md m, e.metadataRes = .ok md → md.modifiedRes = .ok m →
      (fileEntry_from now e).size = md.len) ∧
    (∀ md c, e.metadataRes = .ok md → md.modifiedRes = .error c →
      (fileEntry_from now e).size = 0) ∧
    (∀ c, e.metadataRes = .error c → (fileEntry_from now e).size = 0) := by
  refine ⟨?_, ?_, ?_⟩
  · intro md m h1 h2
    simp [fileEntry_from, FileEntry.from_dir_entry, h1, h2]
  · intro md c h1 h2
    simp [fileEntry_from, FileEntry.from_dir_entry, h1, h2]
  · intro c h1
    simp [fileEntry_from, FileEntry.from_dir_entry, h1]

/-- Witness for C3's amended claim at concrete entries. -/
theorem fileEntry_size_amended_witness :
    (fileEntry_from 0 eGoodMeta).size = 5 ∧
    (fileEntry_from 0 eBadTime100).size = 0 :=
  ⟨(fileEntry_size_amended 0 eGoodMeta).1 ⟨5, .ok 999999⟩ 999999 rfl rfl,
   (fileEntry_size_amended 0 eBadTime100).2.1 ⟨100, .error 0⟩ 0 rfl rfl⟩

/-- The walk used to refute claim C4. -/
def cexWalk4 : List (Except Nat DirEntry) := [.ok eBadTime100]

/-- Counterexample to claim C4: on a walk holding one 100-byte file
whose modified time cannot be read, both calls succeed but `get_files`
records the file with size 0 while `calculate_directory_size` counts
its 100 bytes, so the sums differ. -/
theorem size_sum_cex :
    get_files 0 cexWalk4 = .ok [fileEntry_from 0 eBadTime100] ∧
    calculate_directory_size cexWalk4 = .ok 100 ∧
    ([fileEntry_from 0 eBadTime100].map FileEntry.size).sum ≠ 100 := by
  decide

/-- A walk item either is a traversal error, a non-file, a file whose
metadata read fails, or a file whose modified time is readable — the
configurations under which C4's equality survives. -/
def metadataImpliesTime (x : Except Nat DirEntry) : Bool :=
  match x with
  | .error _ => true
  | .ok e =>
    !e.isFile ||
      match e.metadataRes with
      | .ok md =>
        match md.modifiedRes with
        | .ok _ => true
        | .error _ => false
      | .error _ => true

/-- Claim C4 amended: the sum of sizes of `get_files` equals
`calculate_directory_size` provided no file has readable metadata but
unreadable modified time (such files are recorded with size 0 by
`get_files` yet counted in full by `calculate_directory_size`); files
whose metadata read fails entirely are harmless to the equality. -/
theorem size_sum_amended (now : Nat) (walk : List (Except Nat DirEntry))
    (hmt : walk.all metadataImpliesTime = true)
    (fs : List FileEntry) (n : Nat)
    (hg : get_files now walk = .ok fs)
    (hc : calculate_directory_size walk = .ok n) :
    (fs.map FileEntry.size).sum = n := by
  induction walk generalizing fs n with
  | nil =>
    rw [get_files] at hg
    rw [calculate_directory_size] at hc
    cases hg
    cases hc
    rfl
  | cons x rest ih =>
    rw [List.all_cons, Bool.and_eq_true] at hmt
    obtain ⟨h1, h2⟩ := hmt
    cases x with
    | error e => rw [get_files] at hg; cases hg
    | ok e =>
      rw [get_files] at hg
      rw [calculate_directory_size] at hc
      cases hcr : calculate_directory_size rest with
      | error c => rw [hcr] at hc; cases hc
      | ok s =>
        rw [hcr] at hc
        simp only [Except.map] at hc
        cases hf : e.isFile with
        | false =>
          rw [hf] at hg hc
          simp only [Bool.false_eq_true, if_false] at hg hc
          injection hc with hc
          subst hc
          exact ih h2 fs s hg hcr
        | true =>
          rw [hf] at hg hc
          simp only [if_true] at hg hc
          cases hgr : get_files now rest with
          | error c => rw [hgr] at hg; cases hg
          | ok fs' =>
            rw [hgr] at hg
            simp only [Except.map] at hg
            cases hg
            cases hc
            have hsum := ih h2 fs' s hgr hcr
            have hsize : (fileEntry_from now e).size =
                (match e.metadataRes with
                 | .ok md => md.len
                 | .error _ => 0) := by
              cases hm : e.metadataRes with
              | error c => simp [fileEntry_from, FileEntry.from_dir_entry, hm]
              | ok md =>
                rw [metadataImpliesTime, hf] at h1
                simp only [Bool.not_true, Bool.false_or, hm] at h1
                cases hmo : md.modifiedRes with
                | error c => rw [hmo] at h1; simp at h1
                | ok m => simp [fileEntry_from, FileEntry.from_dir_entry, hm, hmo]
            simp only [List.map_cons, List.sum_cons, hsize, hsum]

/-- Witness for C4's amended claim: a walk with a good 5-byte file, a
metadata-failing file and a directory — both calls agree on 5. -/
theorem size_sum_amended_witness :
    (([fileEntry_from 0 eGoodMeta, fileEntry_from 0 eMetaErr].map
      FileEntry.size).sum = 5) :=
  size_sum_amended 0 [.ok eGoodMeta, .ok eMetaErr, .ok eDir] (by decide)
    [fileEntry_from 0 eGoodMeta, fileEntry_from 0 eMetaErr] 5
    (by decide) (by decide)

/-! ### C5: identify_files -/

/-- The category `identify_files` would file a record under: none when
sniffing errors (the record is skipped), "Unknown" when no type is
detected, the matcher-type category otherwise. -/
def catOf (sniff : Sniffer) (f : FileEntry) : Option String :=
  match sniff f.path with
  | .error _ => none
  | .ok none => some "Unknown"
  | .ok (some k) => some (matcher_type_to_string k.matcherType)

/-- Updating the files of category `c` leaves every other category's
lookup unchanged. -/
theorem lookupCat_map_ne (ms : List (String × List FileEntry)) (c cat : String)
    (g : FileEntry) (hne : cat ≠ c) :
    lookupCat (ms.map (fun q => if q.1 = c then (q.1, q.2 ++ [g]) else q)) cat =
      lookupCat ms cat := by
  induction ms with
  | nil => rfl
  | cons q qs ih =>
    by_cases hq : q.1 = c
    · simp [lookupCat, hq, Ne.symm hne, ih]
    · by_cases hqc : q.1 = cat
      · simp [lookupCat, hq, hqc, hne]
      · simp [lookupCat, hq, hqc, ih]

/-- Adding to a category whose key differs from the head's key
commutes with the head. -/
theorem addToCategory_cons_ne (p : String × List FileEntry)
    (ms : List (String × List FileEntry)) (c : String) (g : FileEntry)
    (hp : p.1 ≠ c) :
    addToCategory (p :: ms) c g = p :: addToCategory ms c g := by
  by_cases h : ms.any (fun q => q.1 = c)
  · simp [addToCategory, List.any_cons, hp, h]
  · simp [addToCategory, List.any_cons, hp, h]

/-- Effect of `addToCategory` on lookups: the target category gains
the new record at the end, all others are unchanged. -/
theorem lookupCat_addToCategory (m : List (String × List FileEntry))
    (c cat : String) (g : FileEntry) :
    lookupCat (addToCategory m c g) cat =
      if cat = c then lookupCat m cat ++ [g] else lookupCat m cat := by
  induction m with
  | nil =>
    by_cases hc : cat = c
    · simp [addToCategory, lookupCat, hc]
    · simp [addToCategory, lookupCat, hc, Ne.symm hc]
  | cons p ms ih =>
    by_cases hp : p.1 = c
    · have hany : (p :: ms).any (fun q => q.1 = c) = true := by
        simp [List.any_cons, hp]
      by_cases hpcat : p.1 = cat
      · have hcc : cat = c := hpcat ▸ hp
        simp [addToCategory, hany, lookupCat, hpcat, hcc]
      · have hcc : cat ≠ c := fun h => hpcat (hp.trans h.symm)
        simp only [addToCategory, hany, if_true, List.map_cons, if_pos hp]
        simp [lookupCat, hpcat, hcc, lookupCat_map_ne ms c cat g hcc]
    · rw [addToCategory_cons_ne p ms c g hp]
      by_cases hpcat : p.1 = cat
      · have hcc : cat ≠ c := fun h => hp (hpcat.trans h)
        simp [lookupCat, hpcat, hcc]
      · simp [lookupCat, hpcat, ih]

/-- Effect of one `identify_files` step on lookups. -/
theorem lookupCat_identify_step (sniff : Sniffer) (m : List (String × List FileEntry))
    (g : FileEntry) (cat : String) :
    lookupCat (identify_step sniff m g) cat =
      if catOf sniff g = some cat then lookupCat m cat ++ [g]
      else lookupCat m cat := by
  cases hs : sniff g.path with
  | error e => simp [identify_step, hs, catOf]
  | ok o =>
    cases o with
    | none =>
      rw [identify_step, hs, lookupCat_addToCategory]
      by_cases hc : cat = "Unknown"
      · simp [catOf, hs, hc]
      · simp [catOf, hs, hc, Ne.symm hc]
    | some k =>
      rw [identify_step, hs, lookupCat_addToCategory]
      by_cases hc : cat = matcher_type_to_string k.matcherType
      · simp [catOf, hs, hc]
      · simp [catOf, hs, hc, Ne.symm hc]

/-- Membership in a category after folding `identify_step` over a
record list: either it was already there, or the record is in the list
and its derived category is exactly this one. -/
theorem lookupCat_foldl (sniff : Sniffer) (files : List FileEntry)
    (m : List (String × List FileEntry)) (cat : String) (f : FileEntry) :
    f ∈ lookupCat (files.foldl (identify_step sniff) m) cat ↔
      f ∈ lookupCat m cat ∨ (f ∈ files ∧ catOf sniff f = some cat) := by
  induction files generalizing m with
  | nil => simp
  | cons g rest ih =>
    rw [List.foldl_cons, ih, lookupCat_identify_step]
    by_cases hg : catOf sniff g = some cat
    · rw [if_pos hg]
      constructor
      · rintro (hmem | hrest)
        · rcases List.mem_append.mp hmem with hmem' | hfg
          · exact Or.inl hmem'
          · have : f = g := by simpa using hfg
            exact Or.inr ⟨by simp [this], this ▸ hg⟩
        · exact Or.inr ⟨List.mem_cons_of_mem g hrest.1, hrest.2⟩
      · rintro (hmem | ⟨hmemlist, hcat⟩)
        · exact Or.inl (List.mem_append.mpr (Or.inl hmem))
        · rcases List.mem_cons.mp hmemlist with rfl | hrest
          · exact Or.inl (List.mem_append.mpr (Or.inr (by simp)))
          · exact Or.inr ⟨hrest, hcat⟩
    · rw [if_neg hg]
      constructor
      · rintro (hmem | hrest)
        · exact Or.inl hmem
        · exact Or.inr ⟨List.mem_cons_of_mem g hrest.1, hrest.2⟩
      · rintro (hmem | ⟨hmemlist, hcat⟩)
        · exact Or.inl hmem
        · rcases List.mem_cons.mp hmemlist with rfl | hrest
          · exact absurd hcat hg
          · exact Or.inr ⟨hrest, hcat⟩

/-- Claim C5: `identify_files` never aborts on an undetermined record:
a record sniffing to no type is filed under "Unknown"; a record with a
detected type is filed under the category of its matcher type; and any
category containing a record is exactly the one derived this way. -/
theorem identify_files_spec (sniff : Sniffer) (files : List FileEntry)
    (f : FileEntry) (hf : f ∈ files) :
    (sniff f.path = .ok none →
      f ∈ lookupCat (identify_files sniff files) "Unknown") ∧
    (∀ k, sniff f.path = .ok (some k) →
      f ∈ lookupCat (identify_files sniff files)
        (matcher_type_to_string k.matcherType)) ∧
    (∀ cat, f ∈ lookupCat (identify_files sniff files) cat →
      (sniff f.path = .ok none ∧ cat = "Unknown") ∨
      (∃ k, sniff f.path = .ok (some k) ∧
        cat = matcher_type_to_string k.matcherType)) := by
  refine ⟨?_, ?_, ?_⟩
  · intro hs
    exact (lookupCat_foldl sniff files [] "Unknown" f).mpr
      (Or.inr ⟨hf, by rw [catOf, hs]⟩)
  · intro k hs
    exact (lookupCat_foldl sniff files [] _ f).mpr
      (Or.inr ⟨hf, by rw [catOf, hs]⟩)
  · intro cat hmem
    rcases (lookupCat_foldl sniff files [] cat f).mp hmem with hbase | ⟨_, hcat⟩
    · simp [lookupCat] at hbase
    · rw [catOf] at hcat
      cases hs : sniff f.path with
      | error e => rw [hs] at hcat; cases hcat
      | ok o =>
        cases o with
        | none =>
          rw [hs] at hcat
          exact Or.inl ⟨rfl, (Option.some_inj.mp hcat).symm⟩
        | some k =>
          rw [hs] at hcat
          exact Or.inr ⟨k, rfl, (Option.some_inj.mp hcat).symm⟩

/-- A sniffer for the C5 witness: one path undetermined, others JPEG. -/
def snMix : Sniffer := fun p =>
  if p = "d/u.bin" then .ok none else .ok (some ⟨.image, "image/jpeg"⟩)

/-- A record that sniffs to no type under `snMix`. -/
def fUnk : FileEntry := ⟨"d/u.bin", "u.bin", some "bin", 1, 0⟩

/-- A record that sniffs as an image under `snMix`. -/
def fImg : FileEntry := ⟨"d/i.jpg", "i.jpg", some "jpg", 1, 0⟩

/-- Witness for C5: the undetermined record lands under "Unknown" and
the image record under "Image". -/
theorem identify_files_spec_witness :
    fUnk ∈ lookupCat (identify_files snMix [fUnk, fImg]) "Unknown" ∧
    fImg ∈ lookupCat (identify_files snMix [fUnk, fImg]) "Image" :=
  ⟨(identify_files_spec snMix [fUnk, fImg] fUnk (by decide)).1 (by decide),
   (identify_files_spec snMix [fUnk, fImg] fImg (by decide)).2.1
     ⟨.image, "image/jpeg"⟩ (by decide)⟩

/-! ### C8: partition ids -/

/-- The ids of all partitions across a disk list, in emission order. -/
def allPartitionIds (disks : List Disk) : List Nat :=
  disks.flatMap (fun d => d.partitions.map Partition.id)

/-- A successfully processed partition takes the current counter value
as its id and bumps the counter by one. -/
theorem process_partition_id (env : DiskEnv) (pd : VariantMap) (count : Nat)
    (p : Partition) (c' : Nat)
    (h : process_partition env pd count = some (p, c')) :
    p.id = count ∧ c' = count + 1 := by
  rw [process_partition] at h
  simp only [bind, Option.bind_eq_some] at h
  obtain ⟨d, hd, h⟩ := h
  obtain ⟨ld, hld, h⟩ := h
  obtain ⟨nm, hnm, h⟩ := h
  obtain ⟨fss, hfss, h⟩ := h
  obtain ⟨mp, hmp, h⟩ := h
  obtain ⟨fsys, hfsys, h⟩ := h
  obtain ⟨ts, hts, h⟩ := h
  obtain ⟨av, hav, h⟩ := h
  cases h
  exact ⟨rfl, rfl⟩

/-- Partition records processed from counter `count` receive exactly
the consecutive ids `count, count+1, …`, and the counter advances by
the number of partitions kept. -/
theorem build_partitions_ids (env : DiskEnv) (rs : List VariantMap) (count : Nat) :
    (build_partitions env rs count).1.map Partition.id =
      List.range' count (build_partitions env rs count).1.length ∧
    (build_partitions env rs count).2 =
      count + (build_partitions env rs count).1.length := by
  induction rs generalizing count with
  | nil => simp [build_partitions, List.range']
  | cons r rest ih =>
    rw [build_partitions]
    cases hp : process_partition env r count with
    | none => exact ih count
    | some pc =>
      obtain ⟨p, c'⟩ := pc
      obtain ⟨hid, hc⟩ := process_partition_id env r count p c' hp
      subst hc
      obtain ⟨ih1, ih2⟩ := ih (count + 1)
      constructor
      · simp only [List.map_cons, List.length_cons, List.range'_succ, hid, ih1]
      · simp only [List.length_cons, ih2]
        omega

/-- A processed disk carries the consecutive partition ids starting at
the incoming counter and returns the advanced counter; a skipped disk
leaves the counter untouched. -/
theorem process_disk_ids (env : DiskEnv) (d : VariantMap) (count : Nat) :
    (∀ disk c', process_disk env d count = (some disk, c') →
      disk.partitions.map Partition.id =
        List.range' count disk.partitions.length ∧
      c' = count + disk.partitions.length) ∧
    (∀ c', process_disk env d count = (none, c') → c' = count) := by
  constructor
  · intro disk c' h
    rw [process_disk] at h
    cases hu : updated_disk_info env d with
    | none => rw [hu] at h; simp at h
    | some disk_info =>
      rw [hu] at h
      dsimp only at h
      cases hfld : disk_fields disk_info with
      | none => rw [hfld] at h; simp at h
      | some t =>
        obtain ⟨dn, mo, se, ki, sz, rm, di⟩ := t
        rw [hfld] at h
        dsimp only at h
        cases hgp : get_partitions env di count with
        | error e => rw [hgp] at h; simp at h
        | ok pr =>
          obtain ⟨ps, c2⟩ := pr
          rw [hgp] at h
          dsimp only at h
          rw [Prod.mk.injEq] at h
          obtain ⟨h1, h2⟩ := h
          injection h1 with h1
          subst h1
          subst h2
          rw [get_partitions] at hgp
          cases hq : env.partitionsOf di with
          | error e => rw [hq] at hgp; cases hgp
          | ok results =>
            rw [hq] at hgp
            injection hgp with hgp
            obtain ⟨l1, l2⟩ := build_partitions_ids env results count
            rw [hgp] at l1 l2
            exact ⟨l1, l2⟩
  · intro c' h
    rw [process_disk] at h
    cases hu : updated_disk_info env d with
    | none =>
      rw [hu] at h
      rw [Prod.mk.injEq] at h
      exact h.2.symm
    | some disk_info =>
      rw [hu] at h
      dsimp only at h
      cases hfld : disk_fields disk_info with
      | none =>
        rw [hfld] at h
        rw [Prod.mk.injEq] at h
        exact h.2.symm
      | some t =>
        obtain ⟨dn, mo, se, ki, sz, rm, di⟩ := t
        rw [hfld] at h
        dsimp only at h
        cases hgp : get_partitions env di count with
        | error e =>
          rw [hgp] at h
          rw [Prod.mk.injEq] at h
          exact h.2.symm
        | ok pr =>
          obtain ⟨ps, c2⟩ := pr
          rw [hgp] at h
          dsimp only at h
          rw [Prod.mk.injEq] at h
          cases h.1

/-- The partition ids emitted by the disk fold starting at counter `c`
form the contiguous range starting at `c`. -/
theorem build_disks_ids (env : DiskEnv) (ds : List VariantMap) (count : Nat) :
    ∃ N, allPartitionIds (build_disks env ds count) = List.range' count N := by
  induction ds generalizing count with
  | nil => exact ⟨0, rfl⟩
  | cons d rest ih =>
    rw [build_disks]
    cases hp : process_disk env d count with
    | mk od c' =>
      cases od with
      | none =>
        have hc := (process_disk_ids env d count).2 c' hp
        subst hc
        exact ih _
      | some disk =>
        obtain ⟨hids, hc⟩ := (process_disk_ids env d count).1 disk c' hp
        subst hc
        obtain ⟨N, hN⟩ := ih (count + disk.partitions.length)
        refine ⟨N + disk.partitions.length, ?_⟩
        rw [allPartitionIds, List.flatMap_cons, ← allPartitionIds, hN, hids]
        have happ := List.range'_append count disk.partitions.length N 1
        rw [one_mul] at happ
        exact happ

/-- Claim C8: across all disks of a successful `get_disks` scan, the
partition ids in emission order are strictly increasing and pairwise
unique — one shared counter assigns them sequentially and is never
reset between disks. -/
theorem get_disks_partition_ids (env : DiskEnv) (disks : List Disk)
    (h : get_disks env = .ok disks) :
    (allPartitionIds disks).Pairwise (· < ·) ∧
    (allPartitionIds disks).Nodup := by
  rw [get_disks] at h
  cases hd : env.diskDrives with
  | error e => rw [hd] at h; cases h
  | ok ds =>
    rw [hd] at h
    injection h with h
    subst h
    obtain ⟨N, hN⟩ := build_disks_ids env ds 0
    rw [hN]
    refine ⟨List.pairwise_lt_range' 0 N, ?_⟩
    rw [← List.range_eq_range']
    exact List.nodup_range N

/-- The disk attribute record used in the C8 witness scan. -/
def dmapW (devId : String) : VariantMap :=
  [("DeviceID", .str devId), ("Caption", .str "Test  Disk"),
   ("Model", .str "M1"), ("SerialNumber", .str "S1"),
   ("Size", .ui8 1000),
   ("CapabilityDescriptions", .array [])]

/-- A partition attribute record holding only its device id. -/
def pmapW (pid : String) : VariantMap := [("DeviceID", .str pid)]

/-- A logical-disk attribute record with name, file system, drive
letter and space figures. -/
def lmapW (nm fs dev : String) : VariantMap :=
  [("Name", .str nm), ("FileSystem", .str fs), ("DeviceID", .str dev),
   ("Size", .ui8 500), ("FreeSpace", .ui8 250)]

/-- A two-disk WMI environment: the first disk has two partitions, the
second one. -/
def envW : DiskEnv :=
  { diskDrives := .ok [dmapW "\\\\.\\PHYSICALDRIVE0", dmapW "\\\\.\\PHYSICALDRIVE1"]
  , storageQuery := fun _ => .ok []
  , partitionsOf := fun devId =>
      if devId = "\\\\.\\PHYSICALDRIVE0" then .ok [pmapW "P0", pmapW "P1"]
      else .ok [pmapW "P2"]
  , logicalOf := fun pid =>
      if pid = "P0" then .ok [lmapW "C:" "NTFS" "C:"]
      else if pid = "P1" then .ok [lmapW "D:" "FAT32" "D:"]
      else .ok [lmapW "E:" "exFAT" "E:"] }

/-- The disks `get_disks` produces on `envW`. -/
def disksW : List Disk :=
  [⟨"Test Disk", "M1", "S1", .Unknown (-1), 1000, false,
    [⟨0, "C:", .NTFS "C:\\", 500, 250⟩, ⟨1, "D:", .FAT32 "D:\\", 500, 250⟩]⟩,
   ⟨"Test Disk", "M1", "S1", .Unknown (-1), 1000, false,
    [⟨2, "E:", .EXFAT "E:\\", 500, 250⟩]⟩]

/-- Witness for C8: on the concrete two-disk scan the ids come out
0, 1, 2 — strictly increasing and unique across both disks. -/
theorem get_disks_partition_ids_witness :
    get_disks envW = .ok disksW ∧
    (allPartitionIds disksW).Pairwise (· < ·) ∧
    (allPartitionIds disksW).Nodup := by
  have h : get_disks envW = .ok disksW := by decide
  exact ⟨h, (get_disks_partition_ids envW disksW h).1,
    (get_disks_partition_ids envW disksW h).2⟩

/-! ### C1: duplicate finder (spec-modelled) -/

/-- A list containing two distinct elements has length at least 2. -/
theorem two_le_length_of_mem_ne {α : Type} {l : List α} {a b : α}
    (ha : a ∈ l) (hb : b ∈ l) (hne : a ≠ b) : 2 ≤ l.length := by
  cases l with
  | nil => cases ha
  | cons x xs =>
    cases xs with
    | nil =>
      rw [List.mem_singleton] at ha hb
      exact absurd (ha.trans hb.symm) hne
    | cons y ys =>
      simp only [List.length_cons]
      omega

/-- Every group of `bucketBy` is the filter of the input at its key. -/
theorem bucketBy_mem_group {β : Type} [DecidableEq β] (key : SFile → β)
    (xs : List SFile) (k : β) (g : List SFile)
    (h : (k, g) ∈ bucketBy key xs) :
    g = xs.filter (fun x => decide (key x = k)) := by
  rw [bucketBy] at h
  rcases List.mem_map.mp h with ⟨kk, hk, heq⟩
  cases heq
  rfl

/-- Every input element's key produces a `bucketBy` group, namely the
filter of the input at that key. -/
theorem bucketBy_self_mem {β : Type} [DecidableEq β] (key : SFile → β)
    (xs : List SFile) (x : SFile) (hx : x ∈ xs) :
    (key x, xs.filter (fun y => decide (key y = key x))) ∈ bucketBy key xs := by
  rw [bucketBy]
  exact List.mem_map.mpr ⟨key x, List.mem_dedup.mpr (List.mem_map_of_mem key hx), rfl⟩

/-- Characterisation of the duplicate-finder output: a group is
emitted exactly when it has at least two members and arises as a hash
group of some surviving size bucket. -/
theorem mem_find_duplicate_files (hash : List Nat → List Nat) (files : List SFile)
    (g : List SFile) :
    g ∈ find_duplicate_files hash files ↔
      2 ≤ g.length ∧
      ∃ b k, b ∈ (bucketBy (fun f => f.content.length)
            (files.filter (fun f => !f.content.isEmpty))).filter
            (fun b => decide (2 ≤ b.2.length)) ∧
        (k, g) ∈ bucketBy (fun f => hash f.content) b.2 := by
  rw [find_duplicate_files]
  constructor
  · intro hg
    rcases List.mem_filter.mp hg with ⟨hmem, hlen⟩
    rcases List.mem_map.mp hmem with ⟨⟨k, gg⟩, hkg, heq⟩
    cases heq
    rcases List.mem_flatMap.mp hkg with ⟨b, hb, hkgb⟩
    exact ⟨by simpa using hlen, b, k, hb, hkgb⟩
  · rintro ⟨hlen, b, k, hb, hkg⟩
    refine List.mem_filter.mpr ⟨?_, by simpa using hlen⟩
    exact List.mem_map.mpr ⟨(k, g), List.mem_flatMap.mpr ⟨b, hb, hkg⟩, rfl⟩

/-- Claim C1 (spec-modelled): the duplicate finder emits only groups
of at least two members, never containing an empty file; two distinct
files with the same non-empty content always land in a common group;
and, provided the digest is collision-free on equal-length contents,
files sharing a group always have identical content. -/
theorem find_duplicate_files_spec (hash : List Nat → List Nat)
    (hcoll : ∀ c₁ c₂ : List Nat, c₁.length = c₂.length → hash c₁ = hash c₂ → c₁ = c₂)
    (files : List SFile) :
    (∀ g ∈ find_duplicate_files hash files, 2 ≤ g.length) ∧
    (∀ g ∈ find_duplicate_files hash files, ∀ f ∈ g, f.content ≠ []) ∧
    (∀ f₁ f₂, f₁ ∈ files → f₂ ∈ files → f₁ ≠ f₂ →
      f₁.content = f₂.content → f₁.content ≠ [] →
      ∃ g, g ∈ find_duplicate_files hash files ∧ f₁ ∈ g ∧ f₂ ∈ g) ∧
    (∀ g ∈ find_duplicate_files hash files, ∀ f₁ ∈ g, ∀ f₂ ∈ g,
      f₁.content = f₂.content) := by
  refine ⟨?_, ?_, ?_, ?_⟩
  · intro g hg
    exact ((mem_find_duplicate_files hash files g).mp hg).1
  · intro g hg f hf
    rcases ((mem_find_duplicate_files hash files g).mp hg).2 with ⟨b, k, hb, hkg⟩
    obtain ⟨b1, b2⟩ := b
    have hg2 := bucketBy_mem_group _ b2 k g hkg
    rw [hg2] at hf
    have hfb2 := (List.mem_filter.mp hf).1
    have hb2 := bucketBy_mem_group _ _ b1 b2 (List.mem_filter.mp hb).1
    rw [hb2] at hfb2
    have hfne := (List.mem_filter.mp hfb2).1
    have := (List.mem_filter.mp hfne).2
    simp only [Bool.not_eq_true'] at this
    intro hnil
    rw [hnil] at this
    simp at this
  · intro f₁ f₂ hf₁ hf₂ hne hcon hnil
    have hne1 : (!f₁.content.isEmpty) = true := by
      cases hc : f₁.content with
      | nil => exact absurd hc hnil
      | cons a t => simp [List.isEmpty]
    have hne2 : (!f₂.content.isEmpty) = true := by
      rw [← hcon]; exact hne1
    have hm1 : f₁ ∈ files.filter (fun f => !f.content.isEmpty) :=
      List.mem_filter.mpr ⟨hf₁, hne1⟩
    have hm2 : f₂ ∈ files.filter (fun f => !f.content.isEmpty) :=
      List.mem_filter.mpr ⟨hf₂, hne2⟩
    set nonEmpty := files.filter (fun f => !f.content.isEmpty) with hnedef
    have hbmem := bucketBy_self_mem (fun f => f.content.length) nonEmpty f₁ hm1
    set b2 := nonEmpty.filter
      (fun y => decide (y.content.length = f₁.content.length)) with hb2def
    have hf1b2 : f₁ ∈ b2 := List.mem_filter.mpr ⟨hm1, by simp⟩
    have hf2b2 : f₂ ∈ b2 := List.mem_filter.mpr ⟨hm2, by simp [hcon]⟩
    have hb2len : 2 ≤ b2.length := two_le_length_of_mem_ne hf1b2 hf2b2 hne
    have hbfil : (f₁.content.length, b2) ∈
        (bucketBy (fun f => f.content.length) nonEmpty).filter
          (fun b => decide (2 ≤ b.2.length)) :=
      List.mem_filter.mpr ⟨hbmem, by simpa using hb2len⟩
    have hgmem := bucketBy_self_mem (fun f => hash f.content) b2 f₁ hf1b2
    set g := b2.filter
      (fun y => decide (hash y.content = hash f₁.content)) with hgdef
    have hf1g : f₁ ∈ g := List.mem_filter.mpr ⟨hf1b2, by simp⟩
    have hf2g : f₂ ∈ g := List.mem_filter.mpr ⟨hf2b2, by simp [hcon]⟩
    refine ⟨g, ?_, hf1g, hf2g⟩
    exact (mem_find_duplicate_files hash files g).mpr
      ⟨two_le_length_of_mem_ne hf1g hf2g hne,
       (f₁.content.length, b2), hash f₁.content, hbfil, hgmem⟩
  · intro g hg f₁ hf₁ f₂ hf₂
    rcases ((mem_find_duplicate_files hash files g).mp hg).2 with ⟨b, k, hb, hkg⟩
    obtain ⟨b1, b2⟩ := b
    have hg2 := bucketBy_mem_group _ b2 k g hkg
    rw [hg2] at hf₁ hf₂
    have hb2 := bucketBy_mem_group _ _ b1 b2 (List.mem_filter.mp hb).1
    have hh1 := (List.mem_filter.mp hf₁).2
    have hh2 := (List.mem_filter.mp hf₂).2
    rw [decide_eq_true_eq] at hh1 hh2
    have hlen1 := (List.mem_filter.mp ((hb2 ▸ (List.mem_filter.mp hf₁).1))).2
    have hlen2 := (List.mem_filter.mp ((hb2 ▸ (List.mem_filter.mp hf₂).1))).2
    rw [decide_eq_true_eq] at hlen1 hlen2
    exact hcoll f₁.content f₂.content (hlen1.trans hlen2.symm) (hh1.trans hh2.symm)

/-- Witness for C1: with the identity digest (collision-free), the two
one-byte files with equal content are grouped together. -/
theorem find_duplicate_files_spec_witness :
    ∃ g, g ∈ find_duplicate_files (fun c => c) [⟨"a", [1]⟩, ⟨"b", [1]⟩] ∧
      (⟨"a", [1]⟩ : SFile) ∈ g ∧ (⟨"b", [1]⟩ : SFile) ∈ g :=
  (find_duplicate_files_spec (fun c => c) (fun _ _ _ h => h)
      [⟨"a", [1]⟩, ⟨"b", [1]⟩]).2.2.1
    ⟨"a", [1]⟩ ⟨"b", [1]⟩ (by decide) (by decide) (by decide) rfl (by decide)

end WinDiskInfo
